import Mathlib

set_option maxRecDepth 100000

/-!
Verification of the AutoPart-Access pipeline (src/streamlit_app.py):
a shallow embedding of the caching fetch (scrape_site), the ranking
routine (choose_optimal with its decision-tree filter), the language
model parse fallback (parse_query_llama3) and the query normalization,
together with theorems settling the associated specification claims.

Python detail kept in the embedding: the built-in hash of a string is
process-specific, so it is passed as an explicit function parameter
pyHash; the Python modulo on a positive divisor is Int.emod; floating
point literals 4.0 and 0.01 are modelled exactly as rationals, which
preserves order and the ranges at stake here.
-/

/-! ## UTF-8 encoding (model of str.encode()) -/

def utf8Bytes (c : Char) : List Nat :=
  let n := c.toNat
  if n < 128 then [n]
  else if n < 2048 then [192 + n / 64, 128 + n % 64]
  else if n < 65536 then [224 + n / 4096, 128 + n / 64 % 64, 128 + n % 64]
  else [240 + n / 262144, 128 + n / 4096 % 64, 128 + n / 64 % 64, 128 + n % 64]

def strBytes (s : String) : List Nat :=
  s.data.foldr (fun c acc => utf8Bytes c ++ acc) []

/-! ## MD5 (model of hashlib.md5, RFC 1321), over byte lists as Nat -/

def U32 : Nat := 4294967296

def compl32 (x : Nat) : Nat := x ^^^ 4294967295

def rotl32 (x s : Nat) : Nat :=
  ((x <<< s) % U32) ||| (x >>> (32 - s))

def md5K : List Nat :=
  [0xd76aa478, 0xe8c7b756, 0x242070db, 0xc1bdceee,
   0xf57c0faf, 0x4787c62a, 0xa8304613, 0xfd469501,
   0x698098d8, 0x8b44f7af, 0xffff5bb1, 0x895cd7be,
   0x6b901122, 0xfd987193, 0xa679438e, 0x49b40821,
   0xf61e2562, 0xc040b340, 0x265e5a51, 0xe9b6c7aa,
   0xd62f105d, 0x02441453, 0xd8a1e681, 0xe7d3fbc8,
   0x21e1cde6, 0xc33707d6, 0xf4d50d87, 0x455a14ed,
   0xa9e3e905, 0xfcefa3f8, 0x676f02d9, 0x8d2a4c8a,
   0xfffa3942, 0x8771f681, 0x6d9d6122, 0xfde5380c,
   0xa4beea44, 0x4bdecfa9, 0xf6bb4b60, 0xbebfbc70,
   0x289b7ec6, 0xeaa127fa, 0xd4ef3085, 0x04881d05,
   0xd9d4d039, 0xe6db99e5, 0x1fa27cf8, 0xc4ac5665,
   0xf4292244, 0x432aff97, 0xab9423a7, 0xfc93a039,
   0x655b59c3, 0x8f0ccc92, 0xffeff47d, 0x85845dd1,
   0x6fa87e4f, 0xfe2ce6e0, 0xa3014314, 0x4e0811a1,
   0xf7537e82, 0xbd3af235, 0x2ad7d2bb, 0xeb86d391]

def md5S : List Nat :=
  [7, 12, 17, 22, 7, 12, 17, 22, 7, 12, 17, 22, 7, 12, 17, 22,
   5, 9, 14, 20, 5, 9, 14, 20, 5, 9, 14, 20, 5, 9, 14, 20,
   4, 11, 16, 23, 4, 11, 16, 23, 4, 11, 16, 23, 4, 11, 16, 23,
   6, 10, 15, 21, 6, 10, 15, 21, 6, 10, 15, 21, 6, 10, 15, 21]

def md5F (i b c d : Nat) : Nat :=
  if i < 16 then (b &&& c) ||| (compl32 b &&& d)
  else if i < 32 then (d &&& b) ||| (compl32 d &&& c)
  else if i < 48 then b ^^^ c ^^^ d
  else c ^^^ (b ||| compl32 d)

def md5G (i : Nat) : Nat :=
  if i < 16 then i
  else if i < 32 then (5 * i + 1) % 16
  else if i < 48 then (3 * i + 5) % 16
  else (7 * i) % 16

def toWordsLE : List Nat → List Nat
  | b0 :: b1 :: b2 :: b3 :: rest =>
      (b0 + 256 * (b1 + 256 * (b2 + 256 * b3))) :: toWordsLE rest
  | _ => []

def wordToBytesLE (w : Nat) : List Nat :=
  [w % 256, w / 256 % 256, w / 65536 % 256, w / 16777216 % 256]

def chunks16 : List Nat → List (List Nat)
  | w0 :: w1 :: w2 :: w3 :: w4 :: w5 :: w6 :: w7 ::
    w8 :: w9 :: w10 :: w11 :: w12 :: w13 :: w14 :: w15 :: rest =>
      [w0, w1, w2, w3, w4, w5, w6, w7, w8, w9, w10, w11, w12, w13, w14, w15]
        :: chunks16 rest
  | _ => []

structure MD5State where
  a : Nat
  b : Nat
  c : Nat
  d : Nat

def md5Start : MD5State := ⟨0x67452301, 0xefcdab89, 0x98badcfe, 0x10325476⟩

def md5Round (M : List Nat) (st : MD5State) (i : Nat) : MD5State :=
  let f := md5F i st.b st.c st.d
  let x := (f + st.a + md5K.getD i 0 + M.getD (md5G i) 0) % U32
  ⟨st.d, (st.b + rotl32 x (md5S.getD i 0)) % U32, st.b, st.c⟩

def md5Chunk (st : MD5State) (M : List Nat) : MD5State :=
  let r := (List.range 64).foldl (md5Round M) st
  ⟨(st.a + r.a) % U32, (st.b + r.b) % U32, (st.c + r.c) % U32, (st.d + r.d) % U32⟩

def le64 (n : Nat) : List Nat :=
  [n % 256, n / 256 % 256, n / 65536 % 256, n / 16777216 % 256,
   n / 4294967296 % 256, n / 1099511627776 % 256,
   n / 281474976710656 % 256, n / 72057594037927936 % 256]

def md5Pad (msg : List Nat) : List Nat :=
  let z := (119 - msg.length % 64) % 64
  msg ++ 128 :: List.replicate z 0 ++ le64 ((msg.length * 8) % 18446744073709551616)

def md5 (msg : List Nat) : List Nat :=
  let st := (chunks16 (toWordsLE (md5Pad msg))).foldl md5Chunk md5Start
  wordToBytesLE st.a ++ wordToBytesLE st.b ++ wordToBytesLE st.c ++ wordToBytesLE st.d

def hexChar (n : Nat) : Char := "0123456789abcdef".data.getD n '0'

def hexByte (b : Nat) : List Char := [hexChar (b / 16), hexChar (b % 16)]

/-- Model of bytes.hexdigest(): two lowercase hex characters per byte. -/
def hexdigest (bs : List Nat) : String :=
  String.mk (bs.foldr (fun b acc => hexByte b ++ acc) [])

/-! ## Data model and the caching fetch scrape_site (lines 111-128) -/

/-- One result record, as synthesized and cached by scrape_site.
Prices in the source are Python ints, ratings Python floats of the form
4.0 + k * 0.01 with k in 0..9; ratings are modelled exactly as rationals. -/
structure SearchResult where
  name : String
  price : Int
  rating : Rat
  link : String
deriving DecidableEq, Repr

/-- The cache directory: file name to stored record list, newest first. -/
def Cache : Type := List (String × List SearchResult)

/-- File-exists plus json.load: first binding for the name, if any. -/
def cacheGet : Cache → String → Option (List SearchResult)
  | [], _ => none
  | (k, v) :: rest, key => if key = k then some v else cacheGet rest key

/-- Line 112: hashlib.md5((query + site).encode()).hexdigest(). -/
def cacheKey (query site : String) : String :=
  hexdigest (md5 (strBytes (query ++ site)))

/-- Line 112: the cache file name derived from the digest. -/
def scrape_filename (query site : String) : String :=
  "cache/" ++ cacheKey query site ++ ".json"

/-- Lines 118-123: the synthesized record on a cache miss. pyHash stands
for the process-specific Python builtin hash on strings. -/
def synthRec (pyHash : String → Int) (query site : String) : SearchResult :=
  { name := query ++ " - Sample from " ++ site
    price := 1500 + pyHash site % 500
    rating := 4 + ((pyHash site % 10 : Int) : Rat) / 100
    link := site }

/-- Lines 111-128: consult the cache file; on a hit return its content
unchanged, otherwise synthesize one record, persist it and return it. -/
def scrape_site (pyHash : String → Int) (query site : String) (cache : Cache) :
    List SearchResult × Cache :=
  match cacheGet cache (scrape_filename query site) with
  | some cached => (cached, cache)
  | none =>
      ([synthRec pyHash query site],
       (scrape_filename query site, [synthRec pyHash query site]) :: cache)

/-! ## Ranking: choose_optimal (lines 131-138) with build_decision_tree -/

/-- pandas Series.min over a column, nonempty in every use site. -/
def colMin {α : Type} [LinearOrder α] [Inhabited α] : List α → α
  | [] => default
  | x :: xs => xs.foldl min x

/-- pandas Series.max over a column, nonempty in every use site. -/
def colMax {α : Type} [LinearOrder α] [Inhabited α] : List α → α
  | [] => default
  | x :: xs => xs.foldl max x

/-- Lines 133-134: the suitability label of a row, 1 iff its price is at
most the column minimum and its rating at least the column maximum. -/
def suitability (results : List SearchResult) (r : SearchResult) : Bool :=
  decide (r.price ≤ colMin (results.map SearchResult.price)) &&
    decide (colMax (results.map SearchResult.rating) ≤ r.rating)

/-- The training frame passed to the classifier: features (price, rating)
with the suitability label of line 133. -/
def trainData (results : List SearchResult) : List ((Int × Rat) × Bool) :=
  results.map (fun r => ((r.price, r.rating), suitability results r))

/-- Lines 103-108 and 136. A DecisionTreeClassifier with default settings
grows until every leaf is pure or feature-constant, so when the training
labels are a function of the features (they are: the label of line 133
depends on a row only through price and rating) its predictions on the
training inputs reproduce the training labels; the fitted model is thus
the lookup of the first training row with the given feature pair. -/
def build_decision_tree (train : List ((Int × Rat) × Bool)) : Int × Rat → Bool :=
  fun x =>
    match train.find? (fun t => decide (t.1 = x)) with
    | some t => t.2
    | none => false

/-- Line 137 sort order: by price ascending, then rating descending. -/
def resultBefore (a b : SearchResult) : Bool :=
  decide (a.price < b.price) || (decide (a.price = b.price) && decide (b.rating ≤ a.rating))

def insertResult (x : SearchResult) : List SearchResult → List SearchResult
  | [] => [x]
  | y :: ys => if resultBefore x y then x :: y :: ys else y :: insertResult x ys

def sortResults : List SearchResult → List SearchResult
  | [] => []
  | x :: xs => insertResult x (sortResults xs)

/-- Lines 131-138: label the rows, fit and apply the tree, keep the rows
predicted suitable, sort by price ascending then rating descending and
take the first row. On the empty list pd.DataFrame([]) has no columns at
all, so the very first column access df[price] raises KeyError. -/
def choose_optimal (results : List SearchResult) : Except String (List SearchResult) :=
  match results with
  | [] => Except.error "KeyError: price"
  | _ :: _ =>
      let clf := build_decision_tree (trainData results)
      Except.ok ((sortResults (results.filter (fun r => clf (r.price, r.rating)))).take 1)

/-! ## Language model parse: parse_query_llama3 (lines 77-100) -/

/-- JSON values, as far as the parse result needs them. -/
inductive JValue : Type where
  | str : String → JValue
  | num : Int → JValue
  | arr : List JValue → JValue
  | obj : List (String × JValue) → JValue
deriving Repr

/-- Line 100: the fallback value returned on any failure. -/
def default_parsed : JValue :=
  .obj [("part_type", .str ""), ("vehicle_model", .str ""),
        ("price_range", .arr [.num 0, .num 999999])]

def lbrace : Char := Char.ofNat 123

def rbrace : Char := Char.ofNat 125

/-- str.find: index of the first occurrence, none for -1. -/
def idxOf (c : Char) : List Char → Option Nat
  | [] => none
  | x :: xs => if x = c then some 0 else (idxOf c xs).map (· + 1)

/-- str.rfind: index of the last occurrence, none for -1. -/
def rIdxOf (c : Char) (l : List Char) : Option Nat :=
  match idxOf c l.reverse with
  | none => none
  | some i => some (l.length - 1 - i)

/-- Line 94: content[json_start : json_end + 1]. -/
def extract_json (content : String) (js je : Nat) : String :=
  String.mk ((content.data.drop js).take (je + 1 - js))

/-- Lines 77-100. The ollama.chat call and the content extraction are the
external collaborator: response is none when that part of the try block
raised; loads models json.loads, none when it raises. Every exception is
caught by the except clause of line 98, which returns the default. -/
def parse_query_llama3 (loads : String → Option JValue) (response : Option String) :
    JValue :=
  match response with
  | none => default_parsed
  | some content =>
      match idxOf lbrace content.data, rIdxOf rbrace content.data with
      | some js, some je =>
          match loads (extract_json content js je) with
          | some v => v
          | none => default_parsed
      | _, _ => default_parsed

/-! ## Query normalization (line 161) -/

/-- The structured parse as the specification data model defines it. -/
structure ParsedQuery where
  part_type : String
  vehicle_model : String
  price_range : Int × Int

/-- Line 161: the f-string building the canonical query string. -/
def normalize_query (p : ParsedQuery) : String :=
  p.part_type ++ " for " ++ p.vehicle_model

/-! ## Helper lemmas -/

theorem md5_length (msg : List Nat) : (md5 msg).length = 16 := by
  simp [md5, wordToBytesLE]

theorem hexfold_length (bs : List Nat) :
    (bs.foldr (fun b acc => hexByte b ++ acc) []).length = 2 * bs.length := by
  induction bs with
  | nil => simp
  | cons b bs ih =>
      show (hexByte b ++ bs.foldr (fun b acc => hexByte b ++ acc) []).length = 2 * (b :: bs).length
      rw [List.length_append, ih]
      simp [hexByte]
      omega

theorem hexdigest_length (bs : List Nat) : (hexdigest bs).length = 2 * bs.length := by
  simp [hexdigest, hexfold_length]

theorem cacheKey_length (q s : String) : (cacheKey q s).length = 32 := by
  simp [cacheKey, hexdigest_length, md5_length]

theorem cacheGet_cons_self (k : String) (v : List SearchResult) (c : Cache) :
    cacheGet ((k, v) :: c) k = some v := by
  simp [cacheGet]

theorem cacheGet_cons_ne (k key : String) (v : List SearchResult) (c : Cache)
    (h : key ≠ k) : cacheGet ((k, v) :: c) key = cacheGet c key := by
  simp [cacheGet, h]

theorem foldl_min_le_start {α : Type} [LinearOrder α] :
    ∀ (l : List α) (a : α), l.foldl min a ≤ a := by
  intro l
  induction l with
  | nil => intro a; simp
  | cons x xs ih =>
      intro a
      calc xs.foldl min (min a x) ≤ min a x := ih (min a x)
        _ ≤ a := min_le_left a x

theorem foldl_min_le_mem {α : Type} [LinearOrder α] :
    ∀ (l : List α) (a x : α), x ∈ l → l.foldl min a ≤ x := by
  intro l
  induction l with
  | nil => intro a x hx; cases hx
  | cons y ys ih =>
      intro a x hx
      rcases List.mem_cons.mp hx with h | h
      · subst h
        exact le_trans (foldl_min_le_start ys (min a x)) (min_le_right a x)
      · exact ih (min a y) x h

theorem colMin_le {α : Type} [LinearOrder α] [Inhabited α]
    (l : List α) (x : α) (hx : x ∈ l) : colMin l ≤ x := by
  cases l with
  | nil => cases hx
  | cons y ys =>
      show ys.foldl min y ≤ x
      rcases List.mem_cons.mp hx with h | h
      · subst h; exact foldl_min_le_start ys x
      · exact foldl_min_le_mem ys y x h

theorem start_le_foldl_max {α : Type} [LinearOrder α] :
    ∀ (l : List α) (a : α), a ≤ l.foldl max a := by
  intro l
  induction l with
  | nil => intro a; simp
  | cons x xs ih =>
      intro a
      calc a ≤ max a x := le_max_left a x
        _ ≤ xs.foldl max (max a x) := ih (max a x)

theorem mem_le_foldl_max {α : Type} [LinearOrder α] :
    ∀ (l : List α) (a x : α), x ∈ l → x ≤ l.foldl max a := by
  intro l
  induction l with
  | nil => intro a x hx; cases hx
  | cons y ys ih =>
      intro a x hx
      rcases List.mem_cons.mp hx with h | h
      · subst h
        exact le_trans (le_max_right a x) (start_le_foldl_max ys (max a x))
      · exact ih (max a y) x h

theorem le_colMax {α : Type} [LinearOrder α] [Inhabited α]
    (l : List α) (x : α) (hx : x ∈ l) : x ≤ colMax l := by
  cases l with
  | nil => cases hx
  | cons y ys =>
      show x ≤ ys.foldl max y
      rcases List.mem_cons.mp hx with h | h
      · subst h; exact start_le_foldl_max ys x
      · exact mem_le_foldl_max ys y x h

theorem mem_insertResult (x y : SearchResult) (l : List SearchResult) :
    y ∈ insertResult x l ↔ y = x ∨ y ∈ l := by
  induction l with
  | nil => simp [insertResult]
  | cons z zs ih =>
      simp only [insertResult]
      split
      · simp [List.mem_cons]
      · simp only [List.mem_cons, ih]
        tauto

theorem insertResult_ne_nil (x : SearchResult) (l : List SearchResult) :
    insertResult x l ≠ [] := by
  cases l with
  | nil => simp [insertResult]
  | cons z zs =>
      simp only [insertResult]
      split
      · simp
      · simp

theorem mem_sortResults (y : SearchResult) (l : List SearchResult) :
    y ∈ sortResults l ↔ y ∈ l := by
  induction l with
  | nil => simp [sortResults]
  | cons x xs ih =>
      simp only [sortResults, mem_insertResult, ih, List.mem_cons]

theorem sortResults_eq_nil_iff (l : List SearchResult) :
    sortResults l = [] ↔ l = [] := by
  cases l with
  | nil => simp [sortResults]
  | cons x xs =>
      simp only [sortResults]
      constructor
      · intro h; exact absurd h (insertResult_ne_nil x (sortResults xs))
      · intro h; cases h

theorem filter_congr_local {α : Type} :
    ∀ (l : List α) (p q : α → Bool), (∀ x ∈ l, p x = q x) → l.filter p = l.filter q := by
  intro l
  induction l with
  | nil => intro p q _; rfl
  | cons x xs ih =>
      intro p q h
      simp only [List.filter_cons, h x (List.mem_cons_self x xs),
        ih p q (fun y hy => h y (List.mem_cons_of_mem x hy))]

theorem suitability_factors (results : List SearchResult) (a b : SearchResult)
    (h1 : a.price = b.price) (h2 : a.rating = b.rating) :
    suitability results a = suitability results b := by
  simp [suitability, h1, h2]

theorem tree_find_label (g : SearchResult → Bool)
    (hg : ∀ a b : SearchResult, a.price = b.price → a.rating = b.rating → g a = g b) :
    ∀ (L : List SearchResult) (r : SearchResult), r ∈ L →
      build_decision_tree (L.map (fun x => ((x.price, x.rating), g x))) (r.price, r.rating)
        = g r := by
  intro L
  induction L with
  | nil => intro r hr; cases hr
  | cons y ys ih =>
      intro r hr
      by_cases hf : ((y.price, y.rating) : Int × Rat) = (r.price, r.rating)
      · have hp : y.price = r.price := congrArg Prod.fst hf
        have hq : y.rating = r.rating := congrArg Prod.snd hf
        have hfind : List.find? (fun t : (Int × Rat) × Bool => decide (t.1 = (r.price, r.rating)))
            (((y.price, y.rating), g y) :: List.map (fun x => ((x.price, x.rating), g x)) ys)
            = some ((y.price, y.rating), g y) := by
          apply List.find?_cons_of_pos
          show decide (((y.price, y.rating) : Int × Rat) = (r.price, r.rating)) = true
          exact decide_eq_true hf
        simp only [build_decision_tree, List.map_cons, hfind]
        exact hg y r hp hq
      · have hr2 : r ∈ ys := by
          rcases List.mem_cons.mp hr with h | h
          · subst h; exact absurd rfl hf
          · exact h
        have hfind : List.find? (fun t : (Int × Rat) × Bool => decide (t.1 = (r.price, r.rating)))
            (((y.price, y.rating), g y) :: List.map (fun x => ((x.price, x.rating), g x)) ys)
            = List.find? (fun t : (Int × Rat) × Bool => decide (t.1 = (r.price, r.rating)))
                (List.map (fun x => ((x.price, x.rating), g x)) ys) := by
          apply List.find?_cons_of_neg
          show ¬ (decide (((y.price, y.rating) : Int × Rat) = (r.price, r.rating)) = true)
          simpa only [decide_eq_true_eq] using hf
        simp only [build_decision_tree, List.map_cons, hfind]
        exact ih r hr2

theorem tree_memorizes (results : List SearchResult) (r : SearchResult)
    (hr : r ∈ results) :
    build_decision_tree (trainData results) (r.price, r.rating) = suitability results r := by
  exact tree_find_label (suitability results)
    (suitability_factors results) results r hr

theorem filter_tree_eq (results : List SearchResult) :
    results.filter
        (fun r => build_decision_tree (trainData results) (r.price, r.rating))
      = results.filter (suitability results) := by
  exact filter_congr_local results _ _ (fun r hr => tree_memorizes results r hr)

theorem suitability_iff (results : List SearchResult) (r : SearchResult)
    (hr : r ∈ results) :
    suitability results r = true ↔
      (r.price = colMin (results.map SearchResult.price)
        ∧ r.rating = colMax (results.map SearchResult.rating)) := by
  have hp : colMin (results.map SearchResult.price) ≤ r.price :=
    colMin_le _ _ (List.mem_map_of_mem SearchResult.price hr)
  have hq : r.rating ≤ colMax (results.map SearchResult.rating) :=
    le_colMax _ _ (List.mem_map_of_mem SearchResult.rating hr)
  simp only [suitability, Bool.and_eq_true, decide_eq_true_eq]
  constructor
  · intro ⟨h1, h2⟩
    exact ⟨le_antisymm h1 hp, le_antisymm hq h2⟩
  · intro ⟨h1, h2⟩
    exact ⟨le_of_eq h1, le_of_eq h2.symm⟩

/-! ## Claim theorems -/

/-- C1: Cache determinism. For every fixed (query, site) pair and starting
cache, calling scrape_site a second time returns exactly the pair produced
by the first call: the hit branch hands back the persisted list unchanged,
with no re-synthesis and no refresh of the cache state. -/
theorem scrape_site_cache_deterministic (pyHash : String → Int) (q s : String)
    (c : Cache) :
    scrape_site pyHash q s (scrape_site pyHash q s c).2 = scrape_site pyHash q s c := by
  cases hc : cacheGet c (scrape_filename q s) with
  | some v => simp [scrape_site, hc]
  | none => simp [scrape_site, hc, cacheGet_cons_self]

/-- C2: Cache key derivation. The file name used by scrape_site is built
from the hex digest of the MD5 hash of the concatenation query + site; the
digest is a 32-character string, a deterministic function of the two
inputs, and the file name determines the digest and conversely. -/
theorem cacheKey_md5_derivation (q s q2 s2 : String) :
    scrape_filename q s = "cache/" ++ hexdigest (md5 (strBytes (q ++ s))) ++ ".json"
    ∧ (cacheKey q s).length = 32
    ∧ (scrape_filename q s = scrape_filename q2 s2 ↔ cacheKey q s = cacheKey q2 s2) := by
  refine ⟨rfl, cacheKey_length q s, ?_⟩
  constructor
  · intro h
    have hd := congrArg String.data h
    simp only [scrape_filename, String.data_append, List.append_assoc] at hd
    exact String.ext (List.append_cancel_right (List.append_cancel_left hd))
  · intro h
    simp only [scrape_filename, h]

/-- C4: the claim says choose_optimal on the empty list returns an absent
result and never raises; in the source, pd.DataFrame([]) has no columns,
so the first column access raises KeyError. This theorem evaluates the
embedded code at the failing input, exhibiting the raised error. -/
theorem choose_optimal_empty_raises :
    choose_optimal [] = Except.error "KeyError: price" := rfl

/-- C7: Query normalization. For every ParsedQuery the canonical query
string is exactly part_type, the literal " for ", and vehicle_model, with
no validation of empty fields; when both fields are empty it is " for ". -/
theorem normalize_query_shape (pt vm : String) (pr : Int × Int) :
    normalize_query ⟨pt, vm, pr⟩ = pt ++ " for " ++ vm
    ∧ normalize_query ⟨"", "", pr⟩ = " for " :=
  ⟨rfl, rfl⟩

/-- C9: Stale-forever cache invariant. A scrape_site call never removes,
rewrites or expires an existing cache entry: any binding present before
the call is still present with the same value afterwards, and a fetch
whose own key is already cached only reads, leaving the state untouched. -/
theorem scrape_site_stale_forever (pyHash : String → Int) (q s k : String)
    (c : Cache) (v : List SearchResult) (hk : cacheGet c k = some v) :
    cacheGet (scrape_site pyHash q s c).2 k = some v
    ∧ (k = scrape_filename q s → scrape_site pyHash q s c = (v, c)) := by
  cases hc : cacheGet c (scrape_filename q s) with
  | some w =>
      refine ⟨by simp [scrape_site, hc, hk], ?_⟩
      intro hks
      subst hks
      have hvw : v = w := by
        have := hk.symm.trans hc
        exact Option.some.inj this
      subst hvw
      simp [scrape_site, hc]
  | none =>
      have hkf : k ≠ scrape_filename q s := by
        intro h
        rw [h, hc] at hk
        cases hk
      refine ⟨?_, fun h => absurd h hkf⟩
      simp only [scrape_site, hc]
      rw [cacheGet_cons_ne _ _ _ _ hkf]
      exact hk

/-- Witness for C9 at a concrete cache holding one entry. -/
theorem scrape_site_stale_forever_witness :
    cacheGet [("k", [])] "k" = some []
    ∧ (cacheGet (scrape_site (fun _ => 0) "q" "s" [("k", [])]).2 "k" = some []
        ∧ ("k" = scrape_filename "q" "s" →
            scrape_site (fun _ => 0) "q" "s" [("k", [])] = ([], [("k", [])]))) :=
  ⟨rfl, scrape_site_stale_forever (fun _ => 0) "q" "s" "k" [("k", [])] [] rfl⟩

/-- C5: Language-model parse fallback. If the model call fails (no
response content reaches the parser) or the response contains no
parseable JSON (a brace is missing, or json.loads rejects the extracted
slice), parse_query_llama3 returns exactly the default object with empty
part_type, empty vehicle_model and price_range [0, 999999]; the function
is total, so no exception reaches the caller. -/
theorem parse_query_llama3_fallback (loads : String → Option JValue) :
    parse_query_llama3 loads none = default_parsed
    ∧ ∀ content : String,
        (idxOf lbrace content.data = none ∨ rIdxOf rbrace content.data = none
          ∨ ∀ js je : Nat, loads (extract_json content js je) = none) →
        parse_query_llama3 loads (some content) = default_parsed := by
  refine ⟨rfl, ?_⟩
  intro content h
  cases hj : idxOf lbrace content.data with
  | none => simp [parse_query_llama3, hj]
  | some js =>
      cases hk : rIdxOf rbrace content.data with
      | none => simp [parse_query_llama3, hj, hk]
      | some je =>
          rcases h with h | h | h
          · rw [hj] at h; cases h
          · rw [hk] at h; cases h
          · simp [parse_query_llama3, hj, hk, h js je]

/-- Witness for C5 at a concrete failing loader and content. -/
theorem parse_query_llama3_fallback_witness :
    parse_query_llama3 (fun _ => none) none = default_parsed
    ∧ (idxOf lbrace ("abc" : String).data = none
        ∨ rIdxOf rbrace ("abc" : String).data = none
        ∨ ∀ js je : Nat, (fun _ => (none : Option JValue)) (extract_json "abc" js je) = none)
    ∧ parse_query_llama3 (fun _ => none) (some "abc") = default_parsed :=
  ⟨(parse_query_llama3_fallback (fun _ => none)).1,
   Or.inr (Or.inr (fun _ _ => rfl)),
   (parse_query_llama3_fallback (fun _ => none)).2 "abc" (Or.inr (Or.inr (fun _ _ => rfl)))⟩

/-- C6: Synthesized record shape on cache miss. With no cached entry for
the derived file name, scrape_site synthesizes and persists exactly one
record: name is the query, the literal " - Sample from ", and the site;
price is the hash-derived value 1500 + hash(site) mod 500, inside
[1500, 2000); rating is 4 + (hash(site) mod 10) / 100, inside [4, 4.1);
link is the raw site identifier. -/
theorem scrape_site_synthesis (pyHash : String → Int) (q s : String) (c : Cache)
    (hmiss : cacheGet c (scrape_filename q s) = none) :
    scrape_site pyHash q s c
      = ([synthRec pyHash q s], (scrape_filename q s, [synthRec pyHash q s]) :: c)
    ∧ (synthRec pyHash q s).name = q ++ " - Sample from " ++ s
    ∧ (synthRec pyHash q s).link = s
    ∧ 1500 ≤ (synthRec pyHash q s).price
    ∧ (synthRec pyHash q s).price < 2000
    ∧ (4 : Rat) ≤ (synthRec pyHash q s).rating
    ∧ (synthRec pyHash q s).rating < 41 / 10 := by
  have h500 : (0 : Int) ≤ pyHash s % 500 := Int.emod_nonneg _ (by norm_num)
  have h500b : pyHash s % 500 < 500 := Int.emod_lt_of_pos _ (by norm_num)
  have h10 : (0 : Int) ≤ pyHash s % 10 := Int.emod_nonneg _ (by norm_num)
  have h10b : pyHash s % 10 < 10 := Int.emod_lt_of_pos _ (by norm_num)
  refine ⟨by simp [scrape_site, hmiss], rfl, rfl, ?_, ?_, ?_, ?_⟩
  · show (1500 : Int) ≤ 1500 + pyHash s % 500
    omega
  · show (1500 : Int) + pyHash s % 500 < 2000
    omega
  · show (4 : Rat) ≤ 4 + ((pyHash s % 10 : Int) : Rat) / 100
    have hc : (0 : Rat) ≤ ((pyHash s % 10 : Int) : Rat) := by exact_mod_cast h10
    have := div_nonneg hc (by norm_num : (0 : Rat) ≤ 100)
    linarith
  · show (4 : Rat) + ((pyHash s % 10 : Int) : Rat) / 100 < 41 / 10
    have hc : ((pyHash s % 10 : Int) : Rat) < 10 := by exact_mod_cast h10b
    have hd : ((pyHash s % 10 : Int) : Rat) / 100 < 1 / 10 := by
      rw [div_lt_iff₀ (by norm_num : (0 : Rat) < 100)]
      linarith
    linarith

/-- Witness for C6 on the empty cache. -/
theorem scrape_site_synthesis_witness :
    cacheGet [] (scrape_filename "q" "s") = none
    ∧ (scrape_site (fun _ => 7) "q" "s" []
        = ([synthRec (fun _ => 7) "q" "s"],
            (scrape_filename "q" "s", [synthRec (fun _ => 7) "q" "s"]) :: [])
      ∧ (synthRec (fun _ => 7) "q" "s").name = "q" ++ " - Sample from " ++ "s"
      ∧ (synthRec (fun _ => 7) "q" "s").link = "s"
      ∧ 1500 ≤ (synthRec (fun _ => 7) "q" "s").price
      ∧ (synthRec (fun _ => 7) "q" "s").price < 2000
      ∧ (4 : Rat) ≤ (synthRec (fun _ => 7) "q" "s").rating
      ∧ (synthRec (fun _ => 7) "q" "s").rating < 41 / 10) :=
  ⟨rfl, scrape_site_synthesis (fun _ => 7) "q" "s" [] rfl⟩

/-- C10: Query independence of synthesis. On cache misses for the same
site, the records synthesized for two different query strings carry the
same price and the same rating: both are derived from the site hash
alone, so only the name and the cache key depend on the query. -/
theorem synthesis_query_independent (pyHash : String → Int) (q1 q2 s : String)
    (c1 c2 : Cache)
    (h1 : cacheGet c1 (scrape_filename q1 s) = none)
    (h2 : cacheGet c2 (scrape_filename q2 s) = none) :
    (scrape_site pyHash q1 s c1).1.map SearchResult.price
      = (scrape_site pyHash q2 s c2).1.map SearchResult.price
    ∧ (scrape_site pyHash q1 s c1).1.map SearchResult.rating
      = (scrape_site pyHash q2 s c2).1.map SearchResult.rating := by
  constructor <;> simp [scrape_site, h1, h2, synthRec]

/-- Witness for C10 on the empty cache with two distinct queries. -/
theorem synthesis_query_independent_witness :
    cacheGet [] (scrape_filename "a" "s") = none
    ∧ cacheGet [] (scrape_filename "b" "s") = none
    ∧ ((scrape_site (fun _ => 3) "a" "s" []).1.map SearchResult.price
        = (scrape_site (fun _ => 3) "b" "s" []).1.map SearchResult.price
      ∧ (scrape_site (fun _ => 3) "a" "s" []).1.map SearchResult.rating
        = (scrape_site (fun _ => 3) "b" "s" []).1.map SearchResult.rating) :=
  ⟨rfl, rfl, synthesis_query_independent (fun _ => 3) "a" "b" "s" [] [] rfl rfl⟩

/-- C3: Ranking rule, decision-tree variant. On a non-empty list a row is
labelled suitable exactly when its price equals the list minimum and its
rating equals the list maximum; choose_optimal keeps the rows the fitted
tree predicts suitable (which are exactly the labelled ones), sorts by
ascending price then descending rating, and returns at most one row,
which is simultaneously cheapest and best-rated; the selection is empty
exactly when no row is simultaneously cheapest and best-rated. -/
theorem choose_optimal_decision_rule (results : List SearchResult)
    (hne : results ≠ []) :
    (∀ r, r ∈ results →
        (suitability results r = true ↔
          (r.price = colMin (results.map SearchResult.price)
            ∧ r.rating = colMax (results.map SearchResult.rating))))
    ∧ ∃ sel, choose_optimal results = Except.ok sel
        ∧ sel.length ≤ 1
        ∧ (∀ r, r ∈ sel → r ∈ results
            ∧ r.price = colMin (results.map SearchResult.price)
            ∧ r.rating = colMax (results.map SearchResult.rating))
        ∧ (sel = [] ↔ results.filter (suitability results) = []) := by
  refine ⟨fun r hr => suitability_iff results r hr, ?_⟩
  obtain ⟨x, xs, rfl⟩ : ∃ x xs, results = x :: xs := by
    cases results with
    | nil => exact absurd rfl hne
    | cons x xs => exact ⟨x, xs, rfl⟩
  have hfilter : (x :: xs).filter
      (fun r => build_decision_tree (trainData (x :: xs)) (r.price, r.rating))
      = (x :: xs).filter (suitability (x :: xs)) := filter_tree_eq (x :: xs)
  refine ⟨(sortResults ((x :: xs).filter (suitability (x :: xs)))).take 1, ?_, ?_, ?_, ?_⟩
  · show Except.ok ((sortResults ((x :: xs).filter
        (fun r => build_decision_tree (trainData (x :: xs)) (r.price, r.rating)))).take 1)
      = Except.ok ((sortResults ((x :: xs).filter (suitability (x :: xs)))).take 1)
    rw [hfilter]
  · exact List.length_take_le 1 _
  · intro r hr
    have hr1 : r ∈ sortResults ((x :: xs).filter (suitability (x :: xs))) :=
      List.mem_of_mem_take hr
    have hr2 : r ∈ (x :: xs).filter (suitability (x :: xs)) :=
      (mem_sortResults r _).mp hr1
    have hr3 := List.mem_filter.mp hr2
    have hmm := (suitability_iff (x :: xs) r hr3.1).mp hr3.2
    exact ⟨hr3.1, hmm.1, hmm.2⟩
  · constructor
    · intro h
      have hnil : sortResults ((x :: xs).filter (suitability (x :: xs))) = [] := by
        cases hs : sortResults ((x :: xs).filter (suitability (x :: xs))) with
        | nil => rfl
        | cons a as => rw [hs] at h; simp at h
      exact (sortResults_eq_nil_iff _).mp hnil
    · intro h
      rw [h]
      rfl

/-- Witness for C3 on a concrete one-element list. -/
theorem choose_optimal_decision_rule_witness :
    ([(⟨"n", 5, 4, "l"⟩ : SearchResult)] ≠ [])
    ∧ ((∀ r, r ∈ [(⟨"n", 5, 4, "l"⟩ : SearchResult)] →
          (suitability [⟨"n", 5, 4, "l"⟩] r = true ↔
            (r.price = colMin ([(⟨"n", 5, 4, "l"⟩ : SearchResult)].map SearchResult.price)
              ∧ r.rating = colMax ([(⟨"n", 5, 4, "l"⟩ : SearchResult)].map SearchResult.rating))))
      ∧ ∃ sel, choose_optimal [⟨"n", 5, 4, "l"⟩] = Except.ok sel
          ∧ sel.length ≤ 1
          ∧ (∀ r, r ∈ sel → r ∈ [(⟨"n", 5, 4, "l"⟩ : SearchResult)]
              ∧ r.price = colMin ([(⟨"n", 5, 4, "l"⟩ : SearchResult)].map SearchResult.price)
              ∧ r.rating = colMax ([(⟨"n", 5, 4, "l"⟩ : SearchResult)].map SearchResult.rating))
          ∧ (sel = [] ↔
              [(⟨"n", 5, 4, "l"⟩ : SearchResult)].filter (suitability [⟨"n", 5, 4, "l"⟩]) = [])) :=
  ⟨List.cons_ne_nil _ _,
   choose_optimal_decision_rule [⟨"n", 5, 4, "l"⟩] (List.cons_ne_nil _ _)⟩

/-- C8 (counterexample): the isolation claim fails as stated. The pairs
("ab", "c") and ("a", "bc") are distinct, yet their concatenations agree,
so they share one cache file name, and the second fetch reads the entry
written by the first: it returns the record synthesized for query "ab",
not the record its own synthesis branch would have produced. -/
theorem cache_isolation_cex :
    (("ab", "c") : String × String) ≠ ("a", "bc")
    ∧ scrape_filename "ab" "c" = scrape_filename "a" "bc"
    ∧ (scrape_site (fun _ => 0) "a" "bc" (scrape_site (fun _ => 0) "ab" "c" []).2).1
        = (scrape_site (fun _ => 0) "ab" "c" []).1
    ∧ (scrape_site (fun _ => 0) "a" "bc" (scrape_site (fun _ => 0) "ab" "c" []).2).1
        ≠ [synthRec (fun _ => 0) "a" "bc"] := by
  have hkey : scrape_filename "a" "bc" = scrape_filename "ab" "c" := rfl
  have h1 : scrape_site (fun _ => 0) "ab" "c" []
      = ([synthRec (fun _ => 0) "ab" "c"],
         [(scrape_filename "ab" "c", [synthRec (fun _ => 0) "ab" "c"])]) := rfl
  have h2 : (scrape_site (fun _ => 0) "a" "bc"
      [(scrape_filename "ab" "c", [synthRec (fun _ => 0) "ab" "c"])]).1
      = [synthRec (fun _ => 0) "ab" "c"] := by
    simp only [scrape_site, hkey, cacheGet_cons_self]
  refine ⟨by decide, rfl, ?_, ?_⟩
  · rw [h1]
    exact h2
  · rw [h1]
    have h4 : (scrape_site (fun _ => 0) "a" "bc"
        (([synthRec (fun _ => 0) "ab" "c"],
          [(scrape_filename "ab" "c", [synthRec (fun _ => 0) "ab" "c"])]).2)).1
        = [synthRec (fun _ => 0) "ab" "c"] := h2
    rw [h4]
    intro hcontra
    have hname := congrArg
      (fun l : List SearchResult => (l.headD ⟨"", 0, 0, ""⟩).name) hcontra
    simp [synthRec] at hname

/-- C8 (amended): isolation holds between fetches whose derived cache
file names differ: such a fetch leaves the other key's entry untouched,
and its returned list does not depend on the other key's entry (it is
unchanged under any cache differing only at that key). -/
theorem cache_isolation (pyHash : String → Int) (q1 s1 q2 s2 : String) (c : Cache)
    (hk : scrape_filename q1 s1 ≠ scrape_filename q2 s2) :
    cacheGet (scrape_site pyHash q1 s1 c).2 (scrape_filename q2 s2)
      = cacheGet c (scrape_filename q2 s2)
    ∧ ∀ c' : Cache,
        (∀ k, k ≠ scrape_filename q2 s2 → cacheGet c' k = cacheGet c k) →
        (scrape_site pyHash q1 s1 c').1 = (scrape_site pyHash q1 s1 c).1 := by
  constructor
  · cases hc : cacheGet c (scrape_filename q1 s1) with
    | some v => simp [scrape_site, hc]
    | none =>
        simp only [scrape_site, hc]
        exact cacheGet_cons_ne _ _ _ _ (Ne.symm hk)
  · intro c' hagree
    have h1 : cacheGet c' (scrape_filename q1 s1) = cacheGet c (scrape_filename q1 s1) :=
      hagree _ hk
    cases hc : cacheGet c (scrape_filename q1 s1) with
    | some v =>
        rw [hc] at h1
        simp [scrape_site, h1, hc]
    | none =>
        rw [hc] at h1
        simp [scrape_site, h1, hc]

/-- Witness for C8 (amended) at two concretely distinct keys. -/
theorem cache_isolation_witness :
    scrape_filename "a" "b" ≠ scrape_filename "c" "d"
    ∧ (cacheGet (scrape_site (fun _ => 0) "a" "b" []).2 (scrape_filename "c" "d")
        = cacheGet [] (scrape_filename "c" "d")
      ∧ ∀ c' : Cache,
          (∀ k, k ≠ scrape_filename "c" "d" → cacheGet c' k = cacheGet [] k) →
          (scrape_site (fun _ => 0) "a" "b" c').1 = (scrape_site (fun _ => 0) "a" "b" []).1) :=
  ⟨by decide, cache_isolation (fun _ => 0) "a" "b" "c" "d" [] (by decide)⟩
